import Mathlib

/-!
Shallow embedding of the stress-test harness of `reasonkit-mem`
(`src/reasonkit-mem/tests/stress_tests.rs`): the `StressMetrics` recorder,
the `MemoryTracker` leak heuristic, and the reader task's key selection.

The Rust counters are `AtomicU64`; `fetch_add` wraps modulo `2^64`, which is
modelled explicitly.  The claims are about the final, quiescent state (after
all workers join), so the atomic operations are modelled as sequential state
updates; a compare-and-retry extremal update loop is, sequentially, a single
conditional store.  Rust `f64` arithmetic on the derived ratios is modelled
exactly over `ℚ`.
-/

/-- Modulus of the Rust `u64` counters. -/
def U64_MOD : Nat := 2 ^ 64

/-- Largest `u64` value (`u64::MAX`), the initial value of `min_latency_ns`. -/
def U64_MAX : Nat := U64_MOD - 1

/-- Constant ` MAX_MEMORY_GROWTH_RATIO` from `stress_tests.rs` (`3.0`). -/
def MAX_MEMORY_GROWTH_RATIO : ℚ := 3

-- ============================================================================
-- StressMetrics
-- ============================================================================

/-- State of `StressMetrics`: the seven `AtomicU64` fields. -/
structure StressMetrics where
  operations_completed : Nat
  operations_failed : Nat
  bytes_written : Nat
  bytes_read : Nat
  min_latency_ns : Nat
  max_latency_ns : Nat
  total_latency_ns : Nat

/-- Derived `StressTestSummary`.  `success_rate` is `f64` in the source,
modelled exactly over `ℚ`. -/
structure StressTestSummary where
  operations_completed : Nat
  operations_failed : Nat
  bytes_processed : Nat
  avg_latency_us : Nat
  min_latency_us : Nat
  max_latency_us : Nat
  success_rate : ℚ

namespace StressMetrics

/-- `StressMetrics::new()`: default (zero) fields except
`min_latency_ns = u64::MAX`. -/
def new : StressMetrics :=
  { operations_completed := 0
    operations_failed := 0
    bytes_written := 0
    bytes_read := 0
    min_latency_ns := U64_MAX
    max_latency_ns := 0
    total_latency_ns := 0 }

/-- Sequential meaning of the compare-and-retry minimum update
(`while latency_ns < min { compare_exchange_weak .. }`). -/
def updateMin (cur cand : Nat) : Nat := if cand < cur then cand else cur

/-- Sequential meaning of the compare-and-retry maximum update
(`while latency_ns > max { compare_exchange_weak .. }`). -/
def updateMax (cur cand : Nat) : Nat := if cand > cur then cand else cur

/-- `StressMetrics::record_success(latency_ns, bytes)`: increments
`operations_completed`, adds `bytes` to `bytes_written`, adds `latency_ns` to
`total_latency_ns` (all wrapping `u64` adds), then runs the compare-and-retry
updates on `min_latency_ns` and `max_latency_ns`. -/
def record_success (s : StressMetrics) (latency_ns bytes : Nat) : StressMetrics :=
  { s with
    operations_completed := (s.operations_completed + 1) % U64_MOD
    bytes_written := (s.bytes_written + bytes) % U64_MOD
    total_latency_ns := (s.total_latency_ns + latency_ns) % U64_MOD
    min_latency_ns := updateMin s.min_latency_ns latency_ns
    max_latency_ns := updateMax s.max_latency_ns latency_ns }

/-- `StressMetrics::record_failure()`: increments `operations_failed`. -/
def record_failure (s : StressMetrics) : StressMetrics :=
  { s with operations_failed := (s.operations_failed + 1) % U64_MOD }

/-- `StressMetrics::summary()`. -/
def summary (s : StressMetrics) : StressTestSummary :=
  { operations_completed := s.operations_completed
    operations_failed := s.operations_failed
    bytes_processed := (s.bytes_written + s.bytes_read) % U64_MOD
    avg_latency_us :=
      if s.operations_completed > 0 then
        s.total_latency_ns / s.operations_completed / 1000
      else 0
    min_latency_us := s.min_latency_ns / 1000
    max_latency_us := s.max_latency_ns / 1000
    success_rate :=
      if s.operations_completed + s.operations_failed > 0 then
        (s.operations_completed : ℚ) /
          ((s.operations_completed : ℚ) + (s.operations_failed : ℚ))
      else 0 }

end StressMetrics

/-- One terminal operation outcome fed into the recorder: a
`record_success(latency_ns, bytes)` call or a `record_failure()` call. -/
inductive MetricsEvent where
  | success (latency_ns bytes : Nat)
  | failure

/-- Apply one recorder call to the metrics state. -/
def applyEvent (s : StressMetrics) : MetricsEvent → StressMetrics
  | .success l b => s.record_success l b
  | .failure => s.record_failure

/-- Run a sequence of recorder calls on a fresh `StressMetrics::new()`. -/
def runEvents (es : List MetricsEvent) : StressMetrics :=
  es.foldl applyEvent StressMetrics.new

/-- Latencies of the `record_success` calls of a sequence, in order. -/
def successLatencies : List MetricsEvent → List Nat
  | [] => []
  | .success l _ :: es => l :: successLatencies es
  | .failure :: es => successLatencies es

/-- Whether an event is a `record_success` call. -/
def MetricsEvent.isSuccess : MetricsEvent → Bool
  | .success _ _ => true
  | .failure => false

/-- Whether an event is a `record_failure` call. -/
def MetricsEvent.isFailure : MetricsEvent → Bool
  | .success _ _ => false
  | .failure => true

-- ============================================================================
-- MemoryTracker
-- ============================================================================

/-- State of `MemoryTracker`: the four `AtomicU64` fields. -/
structure MemoryTracker where
  initial_bytes : Nat
  peak_bytes : Nat
  current_bytes : Nat
  sample_count : Nat

/-- Derived `MemoryLeakResult`.  `growth_ratio` is `f64` in the source,
modelled exactly over `ℚ`. -/
structure MemoryLeakResult where
  initial_bytes : Nat
  peak_bytes : Nat
  final_bytes : Nat
  growth_ratio : ℚ
  possible_leak : Bool
  samples_taken : Nat

namespace MemoryTracker

/-- `MemoryTracker::new()`: all counters zero (`Default`). -/
def new : MemoryTracker :=
  { initial_bytes := 0, peak_bytes := 0, current_bytes := 0, sample_count := 0 }

/-- `MemoryTracker::record_initial()`.  The process-memory reading
(`get_process_memory`) is the input `v`; it is stored as initial, current and
peak. -/
def record_initial (m : MemoryTracker) (v : Nat) : MemoryTracker :=
  { m with initial_bytes := v, current_bytes := v, peak_bytes := v }

/-- `MemoryTracker::sample()`.  The process-memory reading is the input `v`:
stores `current`, bumps `sample_count`, and updates `peak` by the
compare-and-retry loop (`while current > peak { compare_exchange_weak .. }`),
which sequentially is a single conditional store. -/
def sample (m : MemoryTracker) (v : Nat) : MemoryTracker :=
  { m with
    current_bytes := v
    sample_count := (m.sample_count + 1) % U64_MOD
    peak_bytes := if v > m.peak_bytes then v else m.peak_bytes }

/-- `MemoryTracker::check_for_leaks()`.  Takes no threshold argument: the
threshold is the constant ` MAX_MEMORY_GROWTH_RATIO`. -/
def check_for_leaks (m : MemoryTracker) : MemoryLeakResult :=
  let initial := m.initial_bytes
  let peak := m.peak_bytes
  let current := m.current_bytes
  let growth_ratio : ℚ :=
    if initial > 0 then (peak : ℚ) / (initial : ℚ) else 1
  let leaked := decide (current > initial) &&
    decide (growth_ratio > MAX_MEMORY_GROWTH_RATIO)
  { initial_bytes := initial
    peak_bytes := peak
    final_bytes := current
    growth_ratio := growth_ratio
    possible_leak := leaked
    samples_taken := m.sample_count }

/-- Generalization of `check_for_leaks` with the hard-wired constant
` MAX_MEMORY_GROWTH_RATIO` abstracted as a threshold parameter; identical to
the source formula otherwise (`check_for_leaks = check_for_leaks_threshold`
applied to the constant, proved below). -/
def check_for_leaks_threshold (m : MemoryTracker) (threshold : ℚ) : MemoryLeakResult :=
  let initial := m.initial_bytes
  let peak := m.peak_bytes
  let current := m.current_bytes
  let growth_ratio : ℚ :=
    if initial > 0 then (peak : ℚ) / (initial : ℚ) else 1
  let leaked := decide (current > initial) && decide (growth_ratio > threshold)
  { initial_bytes := initial
    peak_bytes := peak
    final_bytes := current
    growth_ratio := growth_ratio
    possible_leak := leaked
    samples_taken := m.sample_count }

end MemoryTracker

-- ============================================================================
-- Reader task key selection
-- ============================================================================

/-- Key-selection step of each reader task iteration in
`stress_concurrent_read_write`: with the registry read-locked, if it is empty
the reader `continue`s (no key, modelled as `none`); otherwise it indexes
`keys_guard[i % keys_guard.len()]` (fallible indexing modelled as `Option`). -/
def readerSelectKey (registry : List Nat) (i : Nat) : Option Nat :=
  if registry.isEmpty then none
  else registry[i % registry.length]?

-- ============================================================================
-- Helper lemmas
-- ============================================================================

theorem updateMin_eq_min (c l : Nat) : StressMetrics.updateMin c l = min c l := by
  simp only [StressMetrics.updateMin, Nat.min_def]
  split <;> split <;> omega

theorem updateMax_eq_max (c l : Nat) : StressMetrics.updateMax c l = max c l := by
  simp only [StressMetrics.updateMax, Nat.max_def, gt_iff_lt]
  split <;> split <;> omega

theorem min_latency_foldl (es : List MetricsEvent) (s : StressMetrics) :
    (es.foldl applyEvent s).min_latency_ns
      = (successLatencies es).foldl min s.min_latency_ns := by
  induction es generalizing s with
  | nil => rfl
  | cons e es ih =>
    cases e with
    | success l b =>
      simp only [List.foldl_cons, successLatencies, applyEvent]
      rw [ih]
      have h1 : (s.record_success l b).min_latency_ns = min s.min_latency_ns l := by
        simp [StressMetrics.record_success, updateMin_eq_min]
      rw [h1]
    | failure =>
      simp only [List.foldl_cons, successLatencies, applyEvent]
      rw [ih]
      rfl

theorem max_latency_foldl (es : List MetricsEvent) (s : StressMetrics) :
    (es.foldl applyEvent s).max_latency_ns
      = (successLatencies es).foldl max s.max_latency_ns := by
  induction es generalizing s with
  | nil => rfl
  | cons e es ih =>
    cases e with
    | success l b =>
      simp only [List.foldl_cons, successLatencies, applyEvent]
      rw [ih]
      have h1 : (s.record_success l b).max_latency_ns = max s.max_latency_ns l := by
        simp [StressMetrics.record_success, updateMax_eq_max]
      rw [h1]
    | failure =>
      simp only [List.foldl_cons, successLatencies, applyEvent]
      rw [ih]
      rfl

theorem foldl_min_le_init (ls : List Nat) (a : Nat) : ls.foldl min a ≤ a := by
  induction ls generalizing a with
  | nil => exact Nat.le_refl a
  | cons x ls ih => exact Nat.le_trans (ih (min a x)) (Nat.min_le_left a x)

theorem foldl_min_le_mem (ls : List Nat) (a : Nat) :
    ∀ l ∈ ls, ls.foldl min a ≤ l := by
  induction ls generalizing a with
  | nil => intro l h; cases h
  | cons x ls ih =>
    intro l h
    rcases List.mem_cons.mp h with h1 | h1
    · subst h1
      exact Nat.le_trans (foldl_min_le_init ls (min a l)) (Nat.min_le_right a l)
    · exact ih (min a x) l h1

theorem foldl_min_mem_or (ls : List Nat) (a : Nat) :
    ls.foldl min a = a ∨ ls.foldl min a ∈ ls := by
  induction ls generalizing a with
  | nil => left; rfl
  | cons x ls ih =>
    rcases ih (min a x) with h | h
    · rw [List.foldl_cons, h]
      rcases Nat.le_total a x with hax | hax
      · left; exact Nat.min_eq_left hax
      · right
        rw [Nat.min_eq_right hax]
        exact List.mem_cons_self x ls
    · right
      exact List.mem_cons_of_mem x h

theorem foldl_max_ge_init (ls : List Nat) (a : Nat) : a ≤ ls.foldl max a := by
  induction ls generalizing a with
  | nil => exact Nat.le_refl a
  | cons x ls ih => exact Nat.le_trans (Nat.le_max_left a x) (ih (max a x))

theorem foldl_max_ge_mem (ls : List Nat) (a : Nat) :
    ∀ l ∈ ls, l ≤ ls.foldl max a := by
  induction ls generalizing a with
  | nil => intro l h; cases h
  | cons x ls ih =>
    intro l h
    rcases List.mem_cons.mp h with h1 | h1
    · subst h1
      exact Nat.le_trans (Nat.le_max_right a l) (foldl_max_ge_init ls (max a l))
    · exact ih (max a x) l h1

theorem foldl_max_mem_or (ls : List Nat) (a : Nat) :
    ls.foldl max a = a ∨ ls.foldl max a ∈ ls := by
  induction ls generalizing a with
  | nil => left; rfl
  | cons x ls ih =>
    rcases ih (max a x) with h | h
    · rw [List.foldl_cons, h]
      rcases Nat.le_total a x with hax | hax
      · right
        rw [Nat.max_eq_right hax]
        exact List.mem_cons_self x ls
      · left; exact Nat.max_eq_left hax
    · right
      exact List.mem_cons_of_mem x h

theorem completed_foldl (es : List MetricsEvent) (s : StressMetrics)
    (h : s.operations_completed + es.countP MetricsEvent.isSuccess < U64_MOD) :
    (es.foldl applyEvent s).operations_completed
      = s.operations_completed + es.countP MetricsEvent.isSuccess := by
  induction es generalizing s with
  | nil => simp
  | cons e es ih =>
    cases e with
    | success l b =>
      have hcount : (MetricsEvent.success l b :: es).countP MetricsEvent.isSuccess
          = es.countP MetricsEvent.isSuccess + 1 :=
        List.countP_cons_of_pos _ _ rfl
      rw [hcount] at h
      have hstep : (s.record_success l b).operations_completed
          = s.operations_completed + 1 := by
        simp only [StressMetrics.record_success]
        exact Nat.mod_eq_of_lt (by omega)
      simp only [List.foldl_cons, applyEvent]
      rw [ih (s.record_success l b) (by rw [hstep]; omega), hstep, hcount]
      omega
    | failure =>
      have hcount : (MetricsEvent.failure :: es).countP MetricsEvent.isSuccess
          = es.countP MetricsEvent.isSuccess :=
        List.countP_cons_of_neg _ _ (by simp [MetricsEvent.isSuccess])
      rw [hcount] at h
      have hstep : (s.record_failure).operations_completed
          = s.operations_completed := rfl
      simp only [List.foldl_cons, applyEvent]
      rw [ih s.record_failure (by rw [hstep]; omega), hstep, hcount]

theorem failed_foldl (es : List MetricsEvent) (s : StressMetrics)
    (h : s.operations_failed + es.countP MetricsEvent.isFailure < U64_MOD) :
    (es.foldl applyEvent s).operations_failed
      = s.operations_failed + es.countP MetricsEvent.isFailure := by
  induction es generalizing s with
  | nil => simp
  | cons e es ih =>
    cases e with
    | success l b =>
      have hcount : (MetricsEvent.success l b :: es).countP MetricsEvent.isFailure
          = es.countP MetricsEvent.isFailure :=
        List.countP_cons_of_neg _ _ (by simp [MetricsEvent.isFailure])
      rw [hcount] at h
      have hstep : (s.record_success l b).operations_failed
          = s.operations_failed := rfl
      simp only [List.foldl_cons, applyEvent]
      rw [ih (s.record_success l b) (by rw [hstep]; omega), hstep, hcount]
    | failure =>
      have hcount : (MetricsEvent.failure :: es).countP MetricsEvent.isFailure
          = es.countP MetricsEvent.isFailure + 1 :=
        List.countP_cons_of_pos _ _ rfl
      rw [hcount] at h
      have hstep : (s.record_failure).operations_failed
          = s.operations_failed + 1 := by
        simp only [StressMetrics.record_failure]
        exact Nat.mod_eq_of_lt (by omega)
      simp only [List.foldl_cons, applyEvent]
      rw [ih s.record_failure (by rw [hstep]; omega), hstep, hcount]
      omega

theorem countP_success_add_failure (es : List MetricsEvent) :
    es.countP MetricsEvent.isSuccess + es.countP MetricsEvent.isFailure
      = es.length := by
  induction es with
  | nil => rfl
  | cons e es ih =>
    cases e <;>
      simp [List.countP_cons, MetricsEvent.isSuccess, MetricsEvent.isFailure] <;>
      omega

-- ============================================================================
-- Claim theorems
-- ============================================================================

/-- Claim C1: for every sequence of `record_success(latency_ns, bytes)` calls
with at least one success, the final state's `min_latency_ns` equals the
minimum and `max_latency_ns` the maximum of all recorded latencies (each is a
recorded latency and bounds all of them), so
`min_latency_ns <= every recorded latency <= max_latency_ns`. -/
theorem stress_metrics_min_max_latency_correct (es : List MetricsEvent)
    (hne : successLatencies es ≠ [])
    (hbound : ∀ l ∈ successLatencies es, l < U64_MOD) :
    ((runEvents es).min_latency_ns ∈ successLatencies es
      ∧ ∀ l ∈ successLatencies es, (runEvents es).min_latency_ns ≤ l)
    ∧ ((runEvents es).max_latency_ns ∈ successLatencies es
      ∧ ∀ l ∈ successLatencies es, l ≤ (runEvents es).max_latency_ns) := by
  obtain ⟨x, hx⟩ := List.exists_mem_of_ne_nil _ hne
  have hminfold : (runEvents es).min_latency_ns
      = (successLatencies es).foldl min U64_MAX :=
    min_latency_foldl es StressMetrics.new
  have hmaxfold : (runEvents es).max_latency_ns
      = (successLatencies es).foldl max 0 :=
    max_latency_foldl es StressMetrics.new
  constructor
  · constructor
    · rw [hminfold]
      rcases foldl_min_mem_or (successLatencies es) U64_MAX with h | h
      · have h1 : (successLatencies es).foldl min U64_MAX ≤ x :=
          foldl_min_le_mem _ _ x hx
        have h2 : x ≤ U64_MAX := Nat.le_sub_one_of_lt (hbound x hx)
        have h3 : (successLatencies es).foldl min U64_MAX = x := by omega
        rw [h3]; exact hx
      · exact h
    · intro l hl
      rw [hminfold]
      exact foldl_min_le_mem _ _ l hl
  · constructor
    · rw [hmaxfold]
      rcases foldl_max_mem_or (successLatencies es) 0 with h | h
      · have h1 : x ≤ (successLatencies es).foldl max 0 :=
          foldl_max_ge_mem _ _ x hx
        have h3 : (successLatencies es).foldl max 0 = x := by omega
        rw [h3]; exact hx
      · exact h
    · intro l hl
      rw [hmaxfold]
      exact foldl_max_ge_mem _ _ l hl

/-- Claim C1 witness at the concrete call sequence
`record_success 5 7; record_failure; record_success 3 9`. -/
theorem stress_metrics_min_max_latency_correct_witness :
    (successLatencies
        [MetricsEvent.success 5 7, MetricsEvent.failure, MetricsEvent.success 3 9] ≠ []
      ∧ ∀ l ∈ successLatencies
          [MetricsEvent.success 5 7, MetricsEvent.failure, MetricsEvent.success 3 9],
          l < U64_MOD)
    ∧ (((runEvents
          [MetricsEvent.success 5 7, MetricsEvent.failure,
            MetricsEvent.success 3 9]).min_latency_ns ∈ successLatencies
          [MetricsEvent.success 5 7, MetricsEvent.failure, MetricsEvent.success 3 9]
        ∧ ∀ l ∈ successLatencies
            [MetricsEvent.success 5 7, MetricsEvent.failure, MetricsEvent.success 3 9],
            (runEvents
              [MetricsEvent.success 5 7, MetricsEvent.failure,
                MetricsEvent.success 3 9]).min_latency_ns ≤ l)
      ∧ ((runEvents
            [MetricsEvent.success 5 7, MetricsEvent.failure,
              MetricsEvent.success 3 9]).max_latency_ns ∈ successLatencies
            [MetricsEvent.success 5 7, MetricsEvent.failure, MetricsEvent.success 3 9]
        ∧ ∀ l ∈ successLatencies
            [MetricsEvent.success 5 7, MetricsEvent.failure, MetricsEvent.success 3 9],
            l ≤ (runEvents
              [MetricsEvent.success 5 7, MetricsEvent.failure,
                MetricsEvent.success 3 9]).max_latency_ns)) :=
  ⟨⟨by decide, by decide⟩,
    stress_metrics_min_max_latency_correct _ (by decide) (by decide)⟩

/-- Claim C2: for every sequence of `record_success`/`record_failure` calls on
a fresh `StressMetrics` (fewer than `2^64` calls, so the `u64` counters do not
wrap), the final `operations_completed + operations_failed` equals the number
of calls, and both counters are monotonically non-decreasing across the
sequence of calls. -/
theorem stress_metrics_counter_sum_monotone (es : List MetricsEvent)
    (h : es.length < U64_MOD) :
    ((runEvents es).operations_completed + (runEvents es).operations_failed
        = es.length)
    ∧ ∀ n m, n ≤ m →
        (runEvents (es.take n)).operations_completed
            ≤ (runEvents (es.take m)).operations_completed
        ∧ (runEvents (es.take n)).operations_failed
            ≤ (runEvents (es.take m)).operations_failed := by
  have hcs : ∀ ks : List MetricsEvent, ks.length < U64_MOD →
      (runEvents ks).operations_completed = ks.countP MetricsEvent.isSuccess := by
    intro ks hk
    have := completed_foldl ks StressMetrics.new
      (by
        have := List.countP_le_length (p := MetricsEvent.isSuccess) (l := ks)
        simp only [StressMetrics.new]
        omega)
    simpa [StressMetrics.new] using this
  have hfs : ∀ ks : List MetricsEvent, ks.length < U64_MOD →
      (runEvents ks).operations_failed = ks.countP MetricsEvent.isFailure := by
    intro ks hk
    have := failed_foldl ks StressMetrics.new
      (by
        have := List.countP_le_length (p := MetricsEvent.isFailure) (l := ks)
        simp only [StressMetrics.new]
        omega)
    simpa [StressMetrics.new] using this
  have htk : ∀ k : Nat, (es.take k).length < U64_MOD := by
    intro k
    rw [List.length_take]
    omega
  have hsub : ∀ n m : Nat, n ≤ m → List.Sublist (es.take n) (es.take m) := by
    intro n m hnm
    have h1 : es.take n = (es.take m).take n := by
      rw [List.take_take, Nat.min_eq_left hnm]
    rw [h1]
    exact List.take_sublist n (es.take m)
  refine ⟨?_, ?_⟩
  · rw [hcs es h, hfs es h]
    exact countP_success_add_failure es
  · intro n m hnm
    constructor
    · rw [hcs _ (htk n), hcs _ (htk m)]
      exact (hsub n m hnm).countP_le _
    · rw [hfs _ (htk n), hfs _ (htk m)]
      exact (hsub n m hnm).countP_le _

/-- Claim C2 witness at the concrete call sequence
`record_success 5 7; record_failure`. -/
theorem stress_metrics_counter_sum_monotone_witness :
    ([MetricsEvent.success 5 7, MetricsEvent.failure] : List MetricsEvent).length
        < U64_MOD
    ∧ (((runEvents [MetricsEvent.success 5 7, MetricsEvent.failure]).operations_completed
          + (runEvents
              [MetricsEvent.success 5 7, MetricsEvent.failure]).operations_failed
          = ([MetricsEvent.success 5 7, MetricsEvent.failure] : List MetricsEvent).length)
      ∧ ∀ n m, n ≤ m →
          (runEvents
              ([MetricsEvent.success 5 7, MetricsEvent.failure].take n)).operations_completed
              ≤ (runEvents
                  ([MetricsEvent.success 5 7,
                    MetricsEvent.failure].take m)).operations_completed
          ∧ (runEvents
              ([MetricsEvent.success 5 7, MetricsEvent.failure].take n)).operations_failed
              ≤ (runEvents
                  ([MetricsEvent.success 5 7,
                    MetricsEvent.failure].take m)).operations_failed) :=
  ⟨by decide, stress_metrics_counter_sum_monotone _ (by decide)⟩

/-- Claim C3: `summary()` on a recorder with zero `record_success` and zero
`record_failure` calls returns `success_rate = 0` and `avg_latency_us = 0`
(the division branches are guarded, so no division by zero is performed), and
whenever `operations_completed + operations_failed > 0` the summary's
`success_rate` equals `completed / (completed + failed)`. -/
theorem summary_tolerates_zero_operations :
    ((runEvents []).summary.success_rate = 0
      ∧ (runEvents []).summary.avg_latency_us = 0)
    ∧ ∀ s : StressMetrics, 0 < s.operations_completed + s.operations_failed →
        s.summary.success_rate
          = (s.operations_completed : ℚ)
            / ((s.operations_completed : ℚ) + (s.operations_failed : ℚ)) := by
  refine ⟨⟨rfl, rfl⟩, ?_⟩
  intro s h
  simp only [StressMetrics.summary, gt_iff_lt]
  rw [if_pos h]

/-- Claim C3 witness at the concrete state with 3 completed and 1 failed
operations. -/
theorem summary_tolerates_zero_operations_witness :
    0 < (StressMetrics.mk 3 1 0 0 0 0 0).operations_completed
        + (StressMetrics.mk 3 1 0 0 0 0 0).operations_failed
    ∧ (StressMetrics.mk 3 1 0 0 0 0 0).summary.success_rate
        = ((StressMetrics.mk 3 1 0 0 0 0 0).operations_completed : ℚ)
          / (((StressMetrics.mk 3 1 0 0 0 0 0).operations_completed : ℚ)
            + ((StressMetrics.mk 3 1 0 0 0 0 0).operations_failed : ℚ)) :=
  ⟨by decide,
    summary_tolerates_zero_operations.2 (StressMetrics.mk 3 1 0 0 0 0 0) (by decide)⟩

/-- Claim C4: for every `MemoryTracker` state, `check_for_leaks` returns a
report with `growth_ratio = peak / initial` when `initial > 0` and
`growth_ratio = 1` when `initial = 0`, and `possible_leak` holds exactly when
`final > initial` and the growth ratio exceeds the configured threshold
constant. -/
theorem check_for_leaks_report_correct (m : MemoryTracker) :
    (0 < m.initial_bytes →
      m.check_for_leaks.growth_ratio = (m.peak_bytes : ℚ) / (m.initial_bytes : ℚ))
    ∧ (m.initial_bytes = 0 → m.check_for_leaks.growth_ratio = 1)
    ∧ (m.check_for_leaks.possible_leak = true ↔
        (m.initial_bytes < m.current_bytes
          ∧ MAX_MEMORY_GROWTH_RATIO < m.check_for_leaks.growth_ratio)) := by
  refine ⟨?_, ?_, ?_⟩
  · intro h
    simp only [MemoryTracker.check_for_leaks, gt_iff_lt]
    rw [if_pos h]
  · intro h
    simp only [MemoryTracker.check_for_leaks, gt_iff_lt, h]
    rw [if_neg (by omega)]
  · simp only [MemoryTracker.check_for_leaks, gt_iff_lt, Bool.and_eq_true,
      decide_eq_true_eq]

/-- Claim C4 witness at the concrete states `(100, 500, 500)` (positive
baseline) and `(0, 500, 500)` (zero baseline). -/
theorem check_for_leaks_report_correct_witness :
    (0 < (MemoryTracker.mk 100 500 500 0).initial_bytes
      ∧ (MemoryTracker.mk 100 500 500 0).check_for_leaks.growth_ratio
          = (((MemoryTracker.mk 100 500 500 0).peak_bytes : ℚ))
            / (((MemoryTracker.mk 100 500 500 0).initial_bytes : ℚ)))
    ∧ ((MemoryTracker.mk 0 500 500 0).initial_bytes = 0
      ∧ (MemoryTracker.mk 0 500 500 0).check_for_leaks.growth_ratio = 1) :=
  ⟨⟨by decide, (check_for_leaks_report_correct (MemoryTracker.mk 100 500 500 0)).1
      (by decide)⟩,
    ⟨rfl, (check_for_leaks_report_correct (MemoryTracker.mk 0 500 500 0)).2.1 rfl⟩⟩

/-- Claim C5 counterexample: the source's `check_for_leaks` takes no threshold
parameter — its threshold is the hard-wired constant
` MAX_MEMORY_GROWTH_RATIO = 3` — so on the claim's state
`initial = 100, peak = 250, current = 250` it returns `possible_leak = false`,
and no call of `check_for_leaks` on that state can yield `possible_leak = true`
as the claim asserts for a threshold argument of `2.0`. -/
theorem check_for_leaks_no_threshold_parameter_cex :
    (MemoryTracker.check_for_leaks ⟨100, 250, 250, 0⟩).possible_leak = false
    ∧ MAX_MEMORY_GROWTH_RATIO = 3 := by
  constructor
  · simp only [MemoryTracker.check_for_leaks, MAX_MEMORY_GROWTH_RATIO]
    norm_num
  · rfl

/-- Claim C5 (amended): `check_for_leaks` uses the fixed constant threshold
` MAX_MEMORY_GROWTH_RATIO = 3.0` rather than taking the threshold as a
parameter; on the state `initial = 100, peak = 250, current = 250` it yields
`growth_ratio = 2.5` and `possible_leak = false`, and the same source formula
with the threshold constant abstracted (`check_for_leaks_threshold`) yields
`possible_leak = true` at threshold `2.0`. -/
theorem check_for_leaks_example_values :
    (MemoryTracker.check_for_leaks ⟨100, 250, 250, 0⟩).growth_ratio = 5 / 2
    ∧ (MemoryTracker.check_for_leaks ⟨100, 250, 250, 0⟩).possible_leak = false
    ∧ (MemoryTracker.check_for_leaks_threshold ⟨100, 250, 250, 0⟩ 2).possible_leak
        = true
    ∧ ∀ m : MemoryTracker,
        m.check_for_leaks = m.check_for_leaks_threshold MAX_MEMORY_GROWTH_RATIO := by
  refine ⟨?_, ?_, ?_, fun m => rfl⟩
  · simp only [MemoryTracker.check_for_leaks]
    norm_num
  · simp only [MemoryTracker.check_for_leaks, MAX_MEMORY_GROWTH_RATIO]
    norm_num
  · simp only [MemoryTracker.check_for_leaks_threshold]
    norm_num

/-- Claim C6: for every `MemoryTracker` state with `initial_bytes = 0`,
`check_for_leaks` reports `possible_leak = false` (zero baseline is never
flagged; the ratio is defined as `1` without dividing), regardless of peak and
current values. -/
theorem check_for_leaks_zero_baseline_never_flags (m : MemoryTracker)
    (h : m.initial_bytes = 0) :
    m.check_for_leaks.possible_leak = false := by
  simp only [MemoryTracker.check_for_leaks, h, gt_iff_lt]
  rw [if_neg (by omega)]
  simp [ MAX_MEMORY_GROWTH_RATIO]

/-- Claim C6 witness at the concrete state `initial = 0, peak = 999,
current = 999`. -/
theorem check_for_leaks_zero_baseline_never_flags_witness :
    (MemoryTracker.mk 0 999 999 5).initial_bytes = 0
    ∧ (MemoryTracker.mk 0 999 999 5).check_for_leaks.possible_leak = false :=
  ⟨rfl, check_for_leaks_zero_baseline_never_flags (MemoryTracker.mk 0 999 999 5) rfl⟩

/-- Claim C7 counterexample: `record_success` offers the caller no choice of
byte counter — the concrete call `record_success 5 7` (as issued by reader
tasks for read bytes just as by writer tasks for written bytes) adds the 7
bytes to `bytes_written` and leaves `bytes_read` at 0, refuting that bytes are
added "to bytesWritten or to bytesRead according to the caller's choice of
counter". -/
theorem record_success_no_counter_choice_cex :
    (StressMetrics.new.record_success 5 7).bytes_read = 0
    ∧ (StressMetrics.new.record_success 5 7).bytes_written = 7 := by
  constructor <;> decide

/-- Claim C7 (amended): every call `record_success(latency_ns, bytes)`
increments `operations_completed` by 1, adds `latency_ns` to
`total_latency_ns`, and adds `bytes` to `bytes_written` unconditionally —
there is no caller's choice of counter: `bytes_read` is never updated by
`record_success` — and the summary's `bytes_processed` equals
`bytes_written + bytes_read` (all assuming the `u64` additions do not wrap). -/
theorem record_success_field_effects (s : StressMetrics) (latency_ns bytes : Nat)
    (hc : s.operations_completed + 1 < U64_MOD)
    (ht : s.total_latency_ns + latency_ns < U64_MOD)
    (hb : s.bytes_written + bytes < U64_MOD) :
    (s.record_success latency_ns bytes).operations_completed
        = s.operations_completed + 1
    ∧ (s.record_success latency_ns bytes).total_latency_ns
        = s.total_latency_ns + latency_ns
    ∧ (s.record_success latency_ns bytes).bytes_written = s.bytes_written + bytes
    ∧ (s.record_success latency_ns bytes).bytes_read = s.bytes_read
    ∧ (s.bytes_written + s.bytes_read < U64_MOD →
        s.summary.bytes_processed = s.bytes_written + s.bytes_read) :=
  ⟨Nat.mod_eq_of_lt hc, Nat.mod_eq_of_lt ht, Nat.mod_eq_of_lt hb, rfl,
    fun hp => Nat.mod_eq_of_lt hp⟩

/-- Claim C7 witness: `record_success 5 7` applied to a fresh recorder. -/
theorem record_success_field_effects_witness :
    (StressMetrics.new.operations_completed + 1 < U64_MOD
      ∧ StressMetrics.new.total_latency_ns + 5 < U64_MOD
      ∧ StressMetrics.new.bytes_written + 7 < U64_MOD)
    ∧ ((StressMetrics.new.record_success 5 7).operations_completed
          = StressMetrics.new.operations_completed + 1
      ∧ (StressMetrics.new.record_success 5 7).total_latency_ns
          = StressMetrics.new.total_latency_ns + 5
      ∧ (StressMetrics.new.record_success 5 7).bytes_written
          = StressMetrics.new.bytes_written + 7
      ∧ (StressMetrics.new.record_success 5 7).bytes_read
          = StressMetrics.new.bytes_read
      ∧ (StressMetrics.new.bytes_written + StressMetrics.new.bytes_read < U64_MOD →
          StressMetrics.new.summary.bytes_processed
            = StressMetrics.new.bytes_written + StressMetrics.new.bytes_read)) :=
  ⟨⟨by decide, by decide, by decide⟩,
    record_success_field_effects StressMetrics.new 5 7 (by decide) (by decide)
      (by decide)⟩

/-- Claim C8: every `sample(v)` leaves `peak_bytes` equal to the maximum of
its previous value and the newly sampled value `v` and never lowers it, and
for every sequence of samples following `record_initial(v0)` the final
`peak_bytes` is the running maximum of `v0` and all sampled values (so it is
monotonically non-decreasing across the sequence). -/
theorem memory_tracker_peak_monotone :
    (∀ (m : MemoryTracker) (v : Nat),
        (m.sample v).peak_bytes = max m.peak_bytes v)
    ∧ (∀ (m : MemoryTracker) (v : Nat), m.peak_bytes ≤ (m.sample v).peak_bytes)
    ∧ (∀ (m : MemoryTracker) (v0 : Nat) (vs : List Nat),
        (vs.foldl MemoryTracker.sample (m.record_initial v0)).peak_bytes
          = vs.foldl max v0) := by
  have hstep : ∀ (m : MemoryTracker) (v : Nat),
      (m.sample v).peak_bytes = max m.peak_bytes v := by
    intro m v
    simp only [MemoryTracker.sample, Nat.max_def, gt_iff_lt]
    split <;> split <;> omega
  have hfold : ∀ (vs : List Nat) (m : MemoryTracker),
      (vs.foldl MemoryTracker.sample m).peak_bytes = vs.foldl max m.peak_bytes := by
    intro vs
    induction vs with
    | nil => intro m; rfl
    | cons v vs ih =>
      intro m
      simp only [List.foldl_cons]
      rw [ih (m.sample v), hstep m v]
  refine ⟨hstep, ?_, ?_⟩
  · intro m v
    rw [hstep m v]
    exact Nat.le_max_left _ _
  · intro m v0 vs
    rw [hfold vs (m.record_initial v0)]
    rfl

/-- Claim C9: in the reader task loop, an empty key registry makes the reader
skip the operation (no lookup, modelled as `none`), and a non-empty registry
is read at position `i % registry.length`, which is always in bounds, so the
registry lookup never panics (the fallible lookup is `isSome`). -/
theorem reader_registry_lookup_safe (registry : List Nat) (i : Nat) :
    (registry = [] → readerSelectKey registry i = none)
    ∧ (registry ≠ [] →
        i % registry.length < registry.length
        ∧ readerSelectKey registry i = registry[i % registry.length]?
        ∧ (registry[i % registry.length]?).isSome = true) := by
  constructor
  · intro h
    subst h
    rfl
  · intro h
    have hlen : 0 < registry.length := List.length_pos.mpr h
    have hlt : i % registry.length < registry.length := Nat.mod_lt i hlen
    refine ⟨hlt, ?_, ?_⟩
    · simp only [readerSelectKey]
      rw [if_neg (by simp [List.isEmpty_iff, h])]
    · rw [List.getElem?_eq_getElem hlt]
      rfl

/-- Claim C9 witness at the concrete registry `[10, 20, 30]` and operation
index 7. -/
theorem reader_registry_lookup_safe_witness :
    ([10, 20, 30] : List Nat) ≠ []
    ∧ (7 % ([10, 20, 30] : List Nat).length < ([10, 20, 30] : List Nat).length
      ∧ readerSelectKey [10, 20, 30] 7
          = ([10, 20, 30] : List Nat)[7 % ([10, 20, 30] : List Nat).length]?
      ∧ (([10, 20, 30] : List Nat)[7 % ([10, 20, 30] : List Nat).length]?).isSome
          = true) :=
  ⟨by decide, (reader_registry_lookup_safe [10, 20, 30] 7).2 (by decide)⟩

/-- Claim C10: a fresh `StressMetrics` initializes `min_latency_ns` to
`u64::MAX`, so `summary()` with zero recorded successes reports
`min_latency_us = u64::MAX / 1000` and `max_latency_us = 0`, while
`avg_latency_us` and `success_rate` are reported as 0. -/
theorem fresh_metrics_summary_extremes :
    StressMetrics.new.min_latency_ns = U64_MAX
    ∧ StressMetrics.new.summary.min_latency_us = U64_MAX / 1000
    ∧ StressMetrics.new.summary.max_latency_us = 0
    ∧ StressMetrics.new.summary.avg_latency_us = 0
    ∧ StressMetrics.new.summary.success_rate = 0 :=
  ⟨rfl, rfl, rfl, rfl, rfl⟩
